import Mathlib

/-!
Shallow embedding of the trial driver FindTour (src/unnamed/part_000) and of
the outer run driver in main (src/SRC/LKHmain.c) of the LKH repository.

The search procedures that FindTour and main call but that are not part of
the two source files (ChooseInitialTour, LinKernighan, MergeWithTour,
MergeTourWithBestTour, the genetic layer, RecordBetterTour,
AdjustCandidateSet, HashInitialize, HashInsert, WriteTour,
ResetCandidateSet, GetTime, Random) are modelled as oracles: per-trial and
per-run result functions carried in an environment record, together with
event flags recorded in per-trial and per-run records.  Costs (GainType, a
C long long) are modelled as Int; PLUS_INFINITY and MINUS_INFINITY are the
long long extreme values.  The backbone-trials phase of FindTour only swaps
candidate sets, which live behind the search oracles, so it leaves no trace
in the modelled observables.  The pointer-level commit of the better tour
at FindTour exit (lines 148-157 of the source) is modelled separately over
an abstract node type with explicit successor and predecessor maps.
-/

def PLUS_INFINITY : Int := 9223372036854775807

def MINUS_INFINITY : Int := -9223372036854775808

/-- OrdinalTourCost as computed at the top of FindTour on the first run:
the reduced cost of the node-identifier tour 1 -> 2 -> ... -> Dimension -> 1,
summed with the node potentials subtracted and divided (C truncating
division on GainType) by Precision. -/
def computeOrdinalTourCost (dimension : Nat) (edgeCost : Nat → Nat → Int)
    (pi : Nat → Int) (precision : Int) : Int :=
  Int.tdiv
    (((List.range (dimension - 1)).map
        (fun k => edgeCost (k + 1) (k + 2) - pi (k + 1) - pi (k + 2))).sum
      + (edgeCost dimension 1 - pi dimension - pi 1))
    precision

/-- Environment of one FindTour call: the globals it reads and the oracles
standing for the external search procedures.  The oracle functions take the
trial number, so that distinct trials may observe distinct results. -/
structure FindTourEnv where
  run : Nat
  maxTrials : Nat
  dimension : Nat
  dimensionSaved : Nat
  norm : Int
  optimum : Int
  stopAtOptimum : Bool
  bestCost : Int
  timeLimit : Int
  entryTime : Int
  prevOrdinalTourCost : Int
  precision : Int
  edgeCost : Nat → Nat → Int
  pi : Nat → Int
  getTime : Nat → Int
  hasBestSuc : Nat → Bool
  lkCost : Nat → Int
  mergeBestCost : Nat → Int
  mergeOrdinalCost : Nat → Int

/-- The value of the static OrdinalTourCost during this call: recomputed
from the identity tour on the first run (when Dimension = DimensionSaved),
otherwise the value left over from the previous call. -/
def findTourOrdinal (env : FindTourEnv) : Int :=
  if env.run = 1 ∧ env.dimension = env.dimensionSaved then
    computeOrdinalTourCost env.dimension env.edgeCost env.pi env.precision
  else env.prevOrdinalTourCost

/-- Record of one trial of FindTour: the costs observed and the actions the
trial body executed. -/
structure TrialRec where
  trial : Nat
  prevBetter : Int
  lkCost : Int
  mergedWithBestTour : Bool
  cost1 : Int
  mergedWithOrdinalTour : Bool
  cost : Int
  improved : Bool
  recorded : Bool
  wroteTour : Bool
  stoppedAtOptimum : Bool
  adjustedCandidates : Bool
  hashCleared : Bool
  hashInserted : Bool
  newBetter : Int
  deriving DecidableEq

/-- Cost after LinKernighan and the optional merge with the previously
recorded better tour (lines 81-88 of FindTour). -/
def trialCost1 (env : FindTourEnv) (t : Nat) : Int :=
  if env.hasBestSuc t then env.mergeBestCost t else env.lkCost t

/-- Guard of the merge with the ordinal (identity) tour, line 89-90:
Dimension = DimensionSaved, Cost at least OrdinalTourCost, and BetterCost
strictly greater than OrdinalTourCost. -/
def ordinalMergeGuard (env : FindTourEnv) (betterCost : Int) (t : Nat) : Bool :=
  decide (env.dimension = env.dimensionSaved)
    && decide (findTourOrdinal env ≤ trialCost1 env t)
    && decide (findTourOrdinal env < betterCost)

/-- Cost at the end of the merging phase of a trial (line 97 reads it). -/
def trialCost (env : FindTourEnv) (betterCost : Int) (t : Nat) : Int :=
  if ordinalMergeGuard env betterCost t then env.mergeOrdinalCost t
  else trialCost1 env t

/-- The StopAtOptimum break condition of line 114, evaluated after
BetterCost has been set to the trial cost. -/
def trialStop (env : FindTourEnv) (betterCost : Int) (t : Nat) : Bool :=
  env.stopAtOptimum && decide (trialCost env betterCost t = env.optimum)

/-- One trial of FindTour (lines 64-135): the merges, the comparison with
BetterCost, and the bookkeeping actions of the improving branch. -/
def trialStep (env : FindTourEnv) (betterCost : Int) (t : Nat) : TrialRec :=
  if trialCost env betterCost t < betterCost then
    { trial := t
      prevBetter := betterCost
      lkCost := env.lkCost t
      mergedWithBestTour := env.hasBestSuc t
      cost1 := trialCost1 env t
      mergedWithOrdinalTour := ordinalMergeGuard env betterCost t
      cost := trialCost env betterCost t
      improved := true
      recorded := true
      wroteTour := decide (env.dimension = env.dimensionSaved)
        && decide (trialCost env betterCost t < env.bestCost)
      stoppedAtOptimum := trialStop env betterCost t
      adjustedCandidates := !trialStop env betterCost t
      hashCleared := !trialStop env betterCost t
      hashInserted := !trialStop env betterCost t
      newBetter := trialCost env betterCost t }
  else
    { trial := t
      prevBetter := betterCost
      lkCost := env.lkCost t
      mergedWithBestTour := env.hasBestSuc t
      cost1 := trialCost1 env t
      mergedWithOrdinalTour := ordinalMergeGuard env betterCost t
      cost := trialCost env betterCost t
      improved := false
      recorded := false
      wroteTour := false
      stoppedAtOptimum := false
      adjustedCandidates := false
      hashCleared := false
      hashInserted := false
      newBetter := betterCost }

/-- The trial loop of FindTour.  At the top of each trial the wall clock is
checked (line 66): when GetTime minus EntryTime has reached TimeLimit the
loop breaks without starting the trial.  A trial whose improving branch
hits the StopAtOptimum break ends the loop.  Returns the final BetterCost
and the list of trials that ran. -/
def runTrials (env : FindTourEnv) (betterCost : Int) (t : Nat) (fuel : Nat) :
    Int × List TrialRec :=
  match fuel with
  | 0 => (betterCost, [])
  | Nat.succ fuel2 =>
    if env.timeLimit ≤ env.getTime t - env.entryTime then (betterCost, [])
    else if (trialStep env betterCost t).stoppedAtOptimum then
      ((trialStep env betterCost t).newBetter, [trialStep env betterCost t])
    else
      ((runTrials env (trialStep env betterCost t).newBetter (t + 1) fuel2).1,
        trialStep env betterCost t ::
          (runTrials env (trialStep env betterCost t).newBetter (t + 1) fuel2).2)

/-- Observable outcome of one FindTour call: the entry-time initialisations
(lines 54-62), the trials, the WriteTour events, and the returned cost. -/
structure FindTourResult where
  betterCostAtEntry : Int
  hashClearedAtEntry : Bool
  choseInitialAtEntry : Bool
  ordinalTourCost : Int
  trace : List TrialRec
  writes : List Int
  resetCalled : Bool
  ret : Int

/-- FindTour: BetterCost is set to PLUS_INFINITY; the hash table is
initialised when MaxTrials is positive, otherwise the else branch chooses
an initial tour; then the trial loop runs; ResetCandidateSet is called at
exit and BetterCost is returned. -/
def findTour (env : FindTourEnv) : FindTourResult :=
  { betterCostAtEntry := PLUS_INFINITY
    hashClearedAtEntry := decide (0 < env.maxTrials)
    choseInitialAtEntry := decide (env.maxTrials = 0)
    ordinalTourCost := findTourOrdinal env
    trace := (runTrials env PLUS_INFINITY 1 env.maxTrials).2
    writes := ((runTrials env PLUS_INFINITY 1 env.maxTrials).2.filter
        (fun tr => tr.wroteTour)).map (fun tr => tr.newBetter)
    resetCalled := true
    ret := (runTrials env PLUS_INFINITY 1 env.maxTrials).1 }

/-- The guard of the identity-tour merge as the specification words it:
the trial cost is still worse than the identity tour and the identity tour
is worse than BetterCost. -/
def specOrdinalMergeGuard (ordinal betterCost cost : Int) : Prop :=
  ordinal < cost ∧ betterCost < ordinal

/-- Soundness of the improving branch of one trial, as the code has it:
the branch is entered exactly when the trial cost beats BetterCost;
RecordBetterTour runs exactly then; WriteTour additionally needs
Dimension = DimensionSaved and the new BetterCost below the global
BestCost; the StopAtOptimum break needs the cost to equal Optimum; and
AdjustCandidateSet with the two hash operations run unless the break
fires first. -/
def ImprovingBlockOK (env : FindTourEnv) (tr : TrialRec) : Prop :=
  (tr.improved = true ↔ tr.cost < tr.prevBetter) ∧
  tr.recorded = tr.improved ∧
  (tr.wroteTour = true ↔
    (tr.cost < tr.prevBetter ∧ env.dimension = env.dimensionSaved ∧
      tr.cost < env.bestCost)) ∧
  (tr.stoppedAtOptimum = true ↔
    (tr.cost < tr.prevBetter ∧ env.stopAtOptimum = true ∧
      tr.cost = env.optimum)) ∧
  tr.adjustedCandidates = (tr.improved && !tr.stoppedAtOptimum) ∧
  tr.hashCleared = tr.adjustedCandidates ∧
  tr.hashInserted = tr.adjustedCandidates ∧
  (tr.recorded = true → tr.newBetter = tr.cost ∧ tr.cost < tr.prevBetter)

/-- Soundness of the identity-tour merge of one trial, as the code has it:
the merge happens exactly when Dimension = DimensionSaved, the cost after
the first merge is at least OrdinalTourCost, and OrdinalTourCost is
strictly below BetterCost (the identity tour is strictly better than the
best tour of the run so far); the trial cost is then the merge result,
otherwise it is unchanged. -/
def OrdinalMergeOK (env : FindTourEnv) (tr : TrialRec) : Prop :=
  (tr.mergedWithOrdinalTour = true ↔
    (env.dimension = env.dimensionSaved ∧
      findTourOrdinal env ≤ tr.cost1 ∧ findTourOrdinal env < tr.prevBetter)) ∧
  (tr.mergedWithOrdinalTour = true → tr.cost = env.mergeOrdinalCost tr.trial) ∧
  (tr.mergedWithOrdinalTour = false → tr.cost = tr.cost1) ∧
  (findTour env).ordinalTourCost = findTourOrdinal env ∧
  (env.run = 1 → env.dimension = env.dimensionSaved →
    findTourOrdinal env =
      computeOrdinalTourCost env.dimension env.edgeCost env.pi env.precision)

/-- Ghost companion of the exit commit loop: the list of nodes the do-while
loop of line 155-157 visits, walking BestSuc from FirstNode until the
successor is FirstNode again.  None when the fuel runs out before the walk
closes (the C loop would not terminate on such a BestSuc map). -/
def commitVisited {A : Type} [DecidableEq A] (bestSuc : A → A) (first : A) :
    Nat → A → Option (List A)
  | 0, _ => none
  | Nat.succ fuel, t =>
    if bestSuc t = first then some [t]
    else (commitVisited bestSuc first fuel (bestSuc t)).map (fun l => t :: l)

/-- The exit commit loop of FindTour, line 155-157:
(t->Suc = t->BestSuc)->Pred = t, repeated while (t = t->BestSuc) is not
FirstNode.  Returns the updated successor and predecessor maps and the
visited nodes. -/
def commitWalk {A : Type} [DecidableEq A] (bestSuc : A → A) (first : A) :
    Nat → A → (A → A) → (A → A) → Option ((A → A) × (A → A) × List A)
  | 0, _, _, _ => none
  | Nat.succ fuel, t, suc, pred =>
    if bestSuc t = first then
      some (Function.update suc t (bestSuc t),
            Function.update pred (bestSuc t) t, [t])
    else (commitWalk bestSuc first fuel (bestSuc t)
        (Function.update suc t (bestSuc t))
        (Function.update pred (bestSuc t) t)).map
      (fun r => (r.1, r.2.1, t :: r.2.2))

/-- The Norm = 0 loop of line 150-154: t = t->BestSuc = t->Suc repeated
while t is not FirstNode, overwriting BestSuc with the working tour. -/
def bestSucOverwrite {A : Type} [DecidableEq A] (suc : A → A) (first : A) :
    Nat → A → (A → A) → Option (A → A)
  | 0, _, _ => none
  | Nat.succ fuel, t, bs =>
    if suc t = first then some (Function.update bs t (suc t))
    else bestSucOverwrite suc first fuel (suc t) (Function.update bs t (suc t))

/-- What the exit phase of FindTour leaves behind: the working tour links,
the fact that ResetCandidateSet ran, and the returned cost. -/
structure ExitResult (A : Type) where
  suc : A → A
  pred : A → A
  resetCalled : Bool
  ret : Int

/-- Exit phase of FindTour (lines 148-163): when Norm = 0 BestSuc is first
overwritten with the working tour; the commit loop then installs BestSuc as
Suc with matching Pred back-links; ResetCandidateSet is called and
BetterCost is returned. -/
def findTourExit {A : Type} [DecidableEq A] (norm : Int) (first : A)
    (suc pred bestSuc : A → A) (betterCost : Int) (fuel : Nat) :
    Option (ExitResult A) :=
  (if norm = 0 then bestSucOverwrite suc first fuel first bestSuc
   else some bestSuc).bind
    (fun bs => (commitWalk bs first fuel first suc pred).map
      (fun r => ExitResult.mk r.1 r.2.1 true betterCost))

/-- Specification of a successful exit phase: it produced a result whose
successor map is BestSuc, with matching predecessor back-links, with
ResetCandidateSet called and BetterCost returned. -/
def ExitCommits {A : Type} (bestSuc : A → A) (betterCost : Int) :
    Option (ExitResult A) → Prop
  | none => False
  | some res =>
    res.resetCalled = true ∧ res.ret = betterCost ∧
    ∀ v, res.suc v = bestSuc v ∧ res.pred (bestSuc v) = v

/-- Environment of the outer run loop of main: the globals read after
CreateCandidateSet, with the per-run search results as oracles.  The
FindTour oracle takes MaxTrials, the PRNG seed in force and the run
number, so that the trace is a function of exactly those inputs.
TraceLevel and the two output file names take no part in the search. -/
structure MainEnv where
  norm : Int
  lowerBound : Int
  runs : Nat
  seed : Int
  maxTrials : Nat
  maxPopulationSize : Nat
  stopAtOptimum : Bool
  optimum : Int
  hasInputSuc : Bool
  traceLevel : Int
  outputTourFileName : String
  tourFileName : String
  findTourCost : Nat → Int → Nat → Int
  geneticCost : Nat → Int → Int
  mergeBestTourCost : Nat → Int → Int

/-- Outcome of the setup phase of main, lines 48-60: the initial BestCost
and Optimum, the number of runs left, and the recording and WriteTour
events of the Norm = 0 branch. -/
structure SetupResult where
  bestCost : Int
  optimum : Int
  runs : Nat
  recordedBetter : Bool
  recordedBest : Bool
  writes : List (String × Int)
  deriving DecidableEq

/-- Setup phase of main: when Norm is nonzero BestCost becomes
PLUS_INFINITY; otherwise the lower bound is recorded as Optimum and
BestCost, the tour is recorded and written to both output files, and Runs
is set to 0. -/
def mainSetup (env : MainEnv) : SetupResult :=
  if env.norm = 0 then
    { bestCost := env.lowerBound
      optimum := env.lowerBound
      runs := 0
      recordedBetter := true
      recordedBest := true
      writes := [(env.outputTourFileName, env.lowerBound),
                 (env.tourFileName, env.lowerBound)] }
  else
    { bestCost := PLUS_INFINITY
      optimum := env.optimum
      runs := env.runs
      recordedBetter := false
      recordedBest := false
      writes := [] }

/-- Record of one iteration of the run loop of main, lines 63-155. -/
structure RunRec where
  run : Nat
  findTourRet : Int
  cost : Int
  prevBest : Int
  newBest : Int
  updatedBest : Bool
  wroteFiles : Bool
  oldOptimum : Int
  newOptimum : Int
  inputSucUpdated : Bool
  prevSeed : Int
  newSeed : Int
  reseeded : Bool
  broke : Bool
  deriving DecidableEq

/-- Cost of one run after the optional recombination: the genetic merging
loop when MaxPopulationSize exceeds 1, otherwise MergeTourWithBestTour
from the second run on (lines 73-102). -/
def runCost (env : MainEnv) (seed : Int) (r : Nat) : Int :=
  if 1 < env.maxPopulationSize then
    env.geneticCost r (env.findTourCost env.maxTrials seed r)
  else if 1 < r then
    env.mergeBestTourCost r (env.findTourCost env.maxTrials seed r)
  else env.findTourCost env.maxTrials seed r

/-- The break condition of line 129: StopAtOptimum, the run cost equal to
the Optimum in force at the start of the run, and MaxPopulationSize at
least 1. -/
def runBroke (env : MainEnv) (optimum seed : Int) (r : Nat) : Bool :=
  env.stopAtOptimum && decide (runCost env seed r = optimum)
    && decide (1 ≤ env.maxPopulationSize)

/-- One iteration of the run loop: FindTour, recombination, the BestCost
update with its WriteTour pair, the Optimum update with the InputSuc copy,
the break test and the reseed SRandom(++Seed). -/
def runStep (env : MainEnv) (bestCost optimum seed : Int) (r : Nat) : RunRec :=
  { run := r
    findTourRet := env.findTourCost env.maxTrials seed r
    cost := runCost env seed r
    prevBest := bestCost
    newBest := if runCost env seed r < bestCost then runCost env seed r
               else bestCost
    updatedBest := decide (runCost env seed r < bestCost)
    wroteFiles := decide (runCost env seed r < bestCost)
    oldOptimum := optimum
    newOptimum := if runCost env seed r < optimum then runCost env seed r
                  else optimum
    inputSucUpdated := env.hasInputSuc && decide (runCost env seed r < optimum)
    prevSeed := seed
    newSeed := if runBroke env optimum seed r then seed else seed + 1
    reseeded := !runBroke env optimum seed r
    broke := runBroke env optimum seed r }

/-- The run loop of main: Run goes from 1 while fuel (the remaining runs)
lasts; an iteration whose break condition held is the last one. -/
def runLoop (env : MainEnv) (bestCost optimum seed : Int) (r fuel : Nat) :
    List RunRec :=
  match fuel with
  | 0 => []
  | Nat.succ fuel2 =>
    if (runStep env bestCost optimum seed r).broke then
      [runStep env bestCost optimum seed r]
    else runStep env bestCost optimum seed r ::
      runLoop env (runStep env bestCost optimum seed r).newBest
        (runStep env bestCost optimum seed r).newOptimum
        (runStep env bestCost optimum seed r).newSeed (r + 1) fuel2

/-- The full trace of the run loop of main, started from the setup phase.
Each element is one invocation of FindTour. -/
def mainTrace (env : MainEnv) : List RunRec :=
  runLoop env (mainSetup env).bestCost (mainSetup env).optimum env.seed 1
    (mainSetup env).runs

/-- Soundness of the Optimum bookkeeping of one run, lines 110-118:
Optimum is reassigned exactly when the run cost is strictly smaller, and
the InputSuc chain is copied exactly on such a reassignment when
FirstNode->InputSuc is set. -/
def OptimumStepOK (env : MainEnv) (rr : RunRec) : Prop :=
  rr.newOptimum = (if rr.cost < rr.oldOptimum then rr.cost else rr.oldOptimum) ∧
  rr.newOptimum ≤ rr.oldOptimum ∧
  (rr.newOptimum ≠ rr.oldOptimum → rr.cost < rr.oldOptimum) ∧
  rr.inputSucUpdated = (env.hasInputSuc && decide (rr.cost < rr.oldOptimum))

/-- Projection of a trial record used by concrete evaluations: final cost,
BetterCost before the trial, and the improved, recorded and WriteTour
flags. -/
def trialView (tr : TrialRec) : Int × Int × Bool × Bool × Bool :=
  (tr.cost, tr.prevBetter, tr.improved, tr.recorded, tr.wroteTour)

/-- Projection of a trial record: the identity-tour merge flag, the cost
before that merge, and BetterCost before the trial. -/
def mergeView (tr : TrialRec) : Bool × Int × Int :=
  (tr.mergedWithOrdinalTour, tr.cost1, tr.prevBetter)

/-- Projection of a run record: run cost, the Optimum at the start of the
run, and the break flag. -/
def runView (rr : RunRec) : Int × Int × Bool :=
  (rr.cost, rr.oldOptimum, rr.broke)

/-- Concrete FindTour environment: second run, one trial, LinKernighan
returning 5, no previous better tour, the stale OrdinalTourCost at 100, no
time pressure, global BestCost still infinite. -/
def envW : FindTourEnv :=
  { run := 2, maxTrials := 1, dimension := 3, dimensionSaved := 3,
    norm := 178, optimum := 0, stopAtOptimum := false,
    bestCost := PLUS_INFINITY, timeLimit := 1000, entryTime := 0,
    prevOrdinalTourCost := 100, precision := 1,
    edgeCost := fun _ _ => 1, pi := fun _ => 0, getTime := fun _ => 0,
    hasBestSuc := fun _ => false, lkCost := fun _ => 5,
    mergeBestCost := fun _ => 5, mergeOrdinalCost := fun _ => 5 }

/-- The single trial of envW. -/
def trW : TrialRec := trialStep envW PLUS_INFINITY 1

/-- Concrete FindTour environment identical to envW except that a previous
run already achieved global BestCost 0, so an improving trial of this run
does not beat BestCost. -/
def envC1 : FindTourEnv :=
  { run := 2, maxTrials := 1, dimension := 3, dimensionSaved := 3,
    norm := 178, optimum := 0, stopAtOptimum := false,
    bestCost := 0, timeLimit := 1000, entryTime := 0,
    prevOrdinalTourCost := 100, precision := 1,
    edgeCost := fun _ _ => 1, pi := fun _ => 0, getTime := fun _ => 0,
    hasBestSuc := fun _ => false, lkCost := fun _ => 5,
    mergeBestCost := fun _ => 5, mergeOrdinalCost := fun _ => 5 }

/-- Concrete FindTour environment whose wall clock is already past the
time limit when the first trial would start. -/
def envT : FindTourEnv :=
  { run := 1, maxTrials := 5, dimension := 3, dimensionSaved := 3,
    norm := 178, optimum := 0, stopAtOptimum := false,
    bestCost := PLUS_INFINITY, timeLimit := 0, entryTime := 0,
    prevOrdinalTourCost := 0, precision := 1,
    edgeCost := fun _ _ => 1, pi := fun _ => 0, getTime := fun _ => 5,
    hasBestSuc := fun _ => false, lkCost := fun _ => 5,
    mergeBestCost := fun _ => 5, mergeOrdinalCost := fun _ => 5 }

/-- Concrete FindTour environment with MaxTrials 0 and Norm 178. -/
def envC3 : FindTourEnv :=
  { run := 1, maxTrials := 0, dimension := 3, dimensionSaved := 3,
    norm := 178, optimum := 0, stopAtOptimum := false,
    bestCost := PLUS_INFINITY, timeLimit := 1000, entryTime := 0,
    prevOrdinalTourCost := 0, precision := 1,
    edgeCost := fun _ _ => 1, pi := fun _ => 0, getTime := fun _ => 0,
    hasBestSuc := fun _ => false, lkCost := fun _ => 5,
    mergeBestCost := fun _ => 5, mergeOrdinalCost := fun _ => 5 }

/-- Concrete FindTour environment for the identity-tour merge: first run,
dimension 2, every edge cost 3, precision 2, so OrdinalTourCost is 3;
LinKernighan returns 10 and the merge with the identity tour returns 8. -/
def envC6 : FindTourEnv :=
  { run := 1, maxTrials := 1, dimension := 2, dimensionSaved := 2,
    norm := 178, optimum := -1, stopAtOptimum := false,
    bestCost := PLUS_INFINITY, timeLimit := 1000, entryTime := 0,
    prevOrdinalTourCost := 0, precision := 2,
    edgeCost := fun _ _ => 3, pi := fun _ => 0, getTime := fun _ => 0,
    hasBestSuc := fun _ => false, lkCost := fun _ => 10,
    mergeBestCost := fun _ => 10, mergeOrdinalCost := fun _ => 8 }

/-- The single trial of envC6. -/
def trC6 : TrialRec := trialStep envC6 PLUS_INFINITY 1

/-- Concrete FindTour environment with MaxTrials 0: the entry branch that
initialises the hash table is not taken. -/
def envC7 : FindTourEnv :=
  { run := 1, maxTrials := 0, dimension := 3, dimensionSaved := 3,
    norm := 178, optimum := 0, stopAtOptimum := false,
    bestCost := PLUS_INFINITY, timeLimit := 1000, entryTime := 0,
    prevOrdinalTourCost := 0, precision := 1,
    edgeCost := fun _ _ => 1, pi := fun _ => 0, getTime := fun _ => 0,
    hasBestSuc := fun _ => false, lkCost := fun _ => 5,
    mergeBestCost := fun _ => 5, mergeOrdinalCost := fun _ => 5 }

/-- Successor map of the 3-cycle 0 -> 1 -> 2 -> 0 on Fin 3. -/
def cyc3 : Fin 3 → Fin 3 := fun v => v + 1

/-- Constant map on Fin 3 standing for arbitrary stale links. -/
def zero3 : Fin 3 → Fin 3 := fun _ => 0

/-- Concrete main environment whose ascent ended with Norm 0 and lower
bound 2085. -/
def envC4 : MainEnv :=
  { norm := 0, lowerBound := 2085, runs := 10, seed := 1, maxTrials := 20,
    maxPopulationSize := 0, stopAtOptimum := false, optimum := 2085,
    hasInputSuc := false, traceLevel := 1,
    outputTourFileName := "out.tour", tourFileName := "best.tour",
    findTourCost := fun _ _ _ => 2085, geneticCost := fun _ c => c,
    mergeBestTourCost := fun _ c => c }

/-- Concrete main environment with StopAtOptimum set, every run cost equal
to the user Optimum 100, and MaxPopulationSize 0. -/
def envC5 : MainEnv :=
  { norm := 178, lowerBound := 0, runs := 2, seed := 1, maxTrials := 10,
    maxPopulationSize := 0, stopAtOptimum := true, optimum := 100,
    hasInputSuc := false, traceLevel := 1,
    outputTourFileName := "out.tour", tourFileName := "best.tour",
    findTourCost := fun _ _ _ => 100, geneticCost := fun _ c => c,
    mergeBestTourCost := fun _ c => c }

/-- Concrete main environment like envC5 but with MaxPopulationSize 1, so
the StopAtOptimum break fires on the first run. -/
def envC5b : MainEnv :=
  { norm := 178, lowerBound := 0, runs := 2, seed := 1, maxTrials := 10,
    maxPopulationSize := 1, stopAtOptimum := true, optimum := 100,
    hasInputSuc := false, traceLevel := 1,
    outputTourFileName := "out.tour", tourFileName := "best.tour",
    findTourCost := fun _ _ _ => 100, geneticCost := fun _ c => c,
    mergeBestTourCost := fun _ c => c }

/-- The first (and breaking) run of envC5b. -/
def rrC5 : RunRec := runStep envC5b PLUS_INFINITY 100 1 1

/-- Concrete main environment for the determinism witness. -/
def envA : MainEnv :=
  { norm := 178, lowerBound := 0, runs := 3, seed := 1, maxTrials := 10,
    maxPopulationSize := 0, stopAtOptimum := false, optimum := 3,
    hasInputSuc := true, traceLevel := 1,
    outputTourFileName := "out.tour", tourFileName := "best.tour",
    findTourCost := fun _ s r => s + (r : Int), geneticCost := fun _ c => c,
    mergeBestTourCost := fun _ c => c }

/-- Concrete main environment identical to envA except for TraceLevel. -/
def envB : MainEnv :=
  { norm := 178, lowerBound := 0, runs := 3, seed := 1, maxTrials := 10,
    maxPopulationSize := 0, stopAtOptimum := false, optimum := 3,
    hasInputSuc := true, traceLevel := 0,
    outputTourFileName := "out.tour", tourFileName := "best.tour",
    findTourCost := fun _ s r => s + (r : Int), geneticCost := fun _ c => c,
    mergeBestTourCost := fun _ c => c }

/-- Concrete main environment whose single run improves Optimum from 100
to 50 with InputSuc set. -/
def envC10 : MainEnv :=
  { norm := 178, lowerBound := 0, runs := 1, seed := 1, maxTrials := 10,
    maxPopulationSize := 0, stopAtOptimum := false, optimum := 100,
    hasInputSuc := true, traceLevel := 1,
    outputTourFileName := "out.tour", tourFileName := "best.tour",
    findTourCost := fun _ _ _ => 50, geneticCost := fun _ c => c,
    mergeBestTourCost := fun _ c => c }

/-- The single run of envC10. -/
def rrC10 : RunRec := runStep envC10 PLUS_INFINITY 100 1 1

theorem trialStep_trial (env : FindTourEnv) (b : Int) (t : Nat) :
    (trialStep env b t).trial = t := by
  unfold trialStep; split <;> rfl

theorem improvingBlockOK_trialStep (env : FindTourEnv) (b : Int) (t : Nat) :
    ImprovingBlockOK env (trialStep env b t) := by
  unfold ImprovingBlockOK trialStep
  split
  case isTrue h =>
    refine ⟨by simp [h], rfl, ?_, ?_, by simp, rfl, rfl, fun _ => ⟨rfl, h⟩⟩
    · simp [h, and_assoc]
    · simp [trialStop, h, and_assoc]
  case isFalse h =>
    refine ⟨by simp [h], rfl, by simp [h], by simp [h], by simp, rfl, rfl,
      by simp⟩

theorem ordinalMergeOK_trialStep (env : FindTourEnv) (b : Int) (t : Nat) :
    OrdinalMergeOK env (trialStep env b t) := by
  have h1 : (trialStep env b t).mergedWithOrdinalTour = ordinalMergeGuard env b t := by
    unfold trialStep; split <;> rfl
  have h2 : (trialStep env b t).cost = trialCost env b t := by
    unfold trialStep; split <;> rfl
  have h3 : (trialStep env b t).cost1 = trialCost1 env t := by
    unfold trialStep; split <;> rfl
  have h4 : (trialStep env b t).prevBetter = b := by
    unfold trialStep; split <;> rfl
  unfold OrdinalMergeOK
  rw [h1, h2, h3, h4, trialStep_trial]
  refine ⟨?_, ?_, ?_, rfl, ?_⟩
  · simp [ordinalMergeGuard, and_assoc]
  · intro hm; simp [trialCost, hm]
  · intro hm; simp [trialCost, hm]
  · intro hr hd; simp [findTourOrdinal, hr, hd]

theorem runTrials_mem (env : FindTourEnv) :
    ∀ fuel t bc tr, tr ∈ (runTrials env bc t fuel).2 →
      ∃ b u, tr = trialStep env b u := by
  intro fuel
  induction fuel with
  | zero => intro t bc tr h; simp [runTrials] at h
  | succ n ih =>
    intro t bc tr h
    simp only [runTrials] at h
    split at h
    · simp at h
    · split at h
      · simp at h; exact ⟨bc, t, h⟩
      · rcases List.mem_cons.mp h with h1 | h2
        · exact ⟨bc, t, h1⟩
        · exact ih _ _ _ h2

theorem runTrials_time (env : FindTourEnv) :
    ∀ fuel t bc tr, tr ∈ (runTrials env bc t fuel).2 →
      env.getTime tr.trial - env.entryTime < env.timeLimit := by
  intro fuel
  induction fuel with
  | zero => intro t bc tr h; simp [runTrials] at h
  | succ n ih =>
    intro t bc tr h
    simp only [runTrials] at h
    split at h
    · simp at h
    next htime =>
      push_neg at htime
      split at h
      · simp at h; rw [h, trialStep_trial]; exact htime
      · rcases List.mem_cons.mp h with h1 | h2
        · rw [h1, trialStep_trial]; exact htime
        · exact ih _ _ _ h2

theorem runTrials_timeout (env : FindTourEnv) (bc : Int) (t fuel : Nat)
    (h : env.timeLimit ≤ env.getTime t - env.entryTime) :
    runTrials env bc t fuel = (bc, []) := by
  cases fuel with
  | zero => rfl
  | succ n => simp only [runTrials, if_pos h]

/-- C1 (amended).  In every trial of FindTour the improving branch is
entered exactly when the trial cost is strictly below the current
BetterCost; RecordBetterTour runs exactly then; WriteTour runs iff
additionally Dimension = DimensionSaved and the new BetterCost is below
the global BestCost; the StopAtOptimum break fires iff additionally
StopAtOptimum is set and the cost equals Optimum; AdjustCandidateSet, the
hash clearing and the hash insertion run iff the branch was entered and
the break did not fire; and every recorded improving tour has cost
strictly below the previously recorded BetterCost. -/
theorem findTour_improvingBlock (env : FindTourEnv) (tr : TrialRec)
    (htr : tr ∈ (findTour env).trace) : ImprovingBlockOK env tr := by
  obtain ⟨b, u, rfl⟩ :=
    runTrials_mem env env.maxTrials 1 PLUS_INFINITY tr htr
  exact improvingBlockOK_trialStep env b u

/-- Witness for C1: the single trial of envW is in the trace and satisfies
the improving-branch soundness property. -/
theorem findTour_improvingBlock_w : ImprovingBlockOK envW trW :=
  findTour_improvingBlock envW trW (by decide)

/-- Counterexample for C1 as stated: in envC1 the only trial improves
(cost 5 below BetterCost PLUS_INFINITY, so RecordBetterTour runs), yet
WriteTour does not run, because the new BetterCost 5 does not beat the
global BestCost 0 carried over from a previous run.  The claimed
"executed if and only if Cost < BetterCost" therefore fails for the
write-tour action. -/
theorem findTour_writeGate_cex :
    (findTour envC1).trace.map trialView = [(5, PLUS_INFINITY, true, true, false)] ∧
    (5 : Int) < PLUS_INFINITY := by decide

/-- C2 (confirmed).  FindTour checks the wall clock only at the top of a
trial: every trial in the trace started strictly before the time limit
was reached, and whenever the clock check fails at the top of a trial the
loop immediately returns the BetterCost accumulated so far with no
further trials — a normal return, not an error. -/
theorem findTour_timeLimitRespected (env : FindTourEnv) :
    (∀ tr ∈ (findTour env).trace,
      env.getTime tr.trial - env.entryTime < env.timeLimit) ∧
    (∀ bc t fuel, env.timeLimit ≤ env.getTime t - env.entryTime →
      runTrials env bc t fuel = (bc, [])) := by
  constructor
  · intro tr htr
    exact runTrials_time env env.maxTrials 1 PLUS_INFINITY tr htr
  · intro bc t fuel h
    exact runTrials_timeout env bc t fuel h

/-- Witness for C2: in envT the clock is already past the limit at trial 1,
so the loop returns its input BetterCost 7 and runs no trial; and the only
trial of envW did start before the limit. -/
theorem findTour_timeLimitRespected_w :
    envT.timeLimit ≤ envT.getTime 1 - envT.entryTime ∧
    runTrials envT 7 1 5 = (7, []) ∧
    envW.getTime trW.trial - envW.entryTime < envW.timeLimit :=
  ⟨by decide, (findTour_timeLimitRespected envT).2 7 1 5 (by decide),
    (findTour_timeLimitRespected envW).1 trW (by decide)⟩

/-- C3 (confirmed).  A FindTour call with MaxTrials 0 (and Norm nonzero)
runs no trial, writes no tour file and returns PLUS_INFINITY. -/
theorem findTour_maxTrialsZero (env : FindTourEnv)
    (h0 : env.maxTrials = 0) (hn : env.norm ≠ 0) :
    (findTour env).ret = PLUS_INFINITY ∧ (findTour env).writes = [] ∧
    (findTour env).trace = [] := by
  simp [findTour, h0, runTrials]

/-- Witness for C3 at envC3. -/
theorem findTour_maxTrialsZero_w :
    envC3.maxTrials = 0 ∧ envC3.norm ≠ 0 ∧
    (findTour envC3).ret = PLUS_INFINITY ∧ (findTour envC3).writes = [] ∧
    (findTour envC3).trace = [] := by
  have h := findTour_maxTrialsZero envC3 rfl (by decide)
  exact ⟨rfl, by decide, h.1, h.2.1, h.2.2⟩

/-- C6 (amended).  In every trial, after the optional merge with the
previous better tour, the merge with the identity tour happens exactly
when Dimension = DimensionSaved, the cost is at least OrdinalTourCost and
OrdinalTourCost is strictly below BetterCost — that is, when the identity
tour is strictly better (not worse) than the best tour of the run so far;
the trial cost then becomes the merge result.  OrdinalTourCost is the
reduced cost of the node-identifier sequence 1 -> 2 -> ... -> n -> 1,
computed on the first run. -/
theorem findTour_ordinalMergeGuard (env : FindTourEnv) (tr : TrialRec)
    (htr : tr ∈ (findTour env).trace) : OrdinalMergeOK env tr := by
  obtain ⟨b, u, rfl⟩ :=
    runTrials_mem env env.maxTrials 1 PLUS_INFINITY tr htr
  exact ordinalMergeOK_trialStep env b u

/-- Witness for C6: the single trial of envC6 is in the trace and
satisfies the identity-merge soundness property. -/
theorem findTour_ordinalMergeGuard_w : OrdinalMergeOK envC6 trC6 :=
  findTour_ordinalMergeGuard envC6 trC6 (by decide)

/-- Counterexample for C6 as stated: in envC6 the code merges with the
identity tour (OrdinalTourCost 3, trial cost 10, BetterCost
PLUS_INFINITY), although the condition claimed by the specification —
cost worse than the identity AND the identity worse than BetterCost —
does not hold there, since the identity tour is better, not worse, than
BetterCost. -/
theorem findTour_ordinalGuard_cex :
    (findTour envC6).ordinalTourCost = 3 ∧
    (findTour envC6).trace.map mergeView = [(true, 10, PLUS_INFINITY)] ∧
    ¬ specOrdinalMergeGuard 3 PLUS_INFINITY 10 := by
  refine ⟨by decide, by decide, ?_⟩
  intro h
  exact absurd h.2 (by decide)

/-- C7 (amended).  At entry to each call of FindTour, BetterCost is
initialised to PLUS_INFINITY unconditionally, while the hash table is
cleared exactly when MaxTrials is positive (otherwise the else branch
chooses an initial tour instead); hence whenever the call performs any
trial, no tour signature from a previous run survives into it. -/
theorem findTour_entryInit (env : FindTourEnv) :
    (findTour env).betterCostAtEntry = PLUS_INFINITY ∧
    ((findTour env).hashClearedAtEntry = true ↔ 0 < env.maxTrials) ∧
    ((findTour env).choseInitialAtEntry = true ↔ env.maxTrials = 0) := by
  simp [findTour]

/-- Counterexample for C7 as stated: a call with MaxTrials 0 does not
clear the hash table, although BetterCost is still initialised to
PLUS_INFINITY. -/
theorem findTour_hashClear_cex :
    envC7.maxTrials = 0 ∧
    (findTour envC7).betterCostAtEntry = PLUS_INFINITY ∧
    (findTour envC7).hashClearedAtEntry = false := by decide

theorem runLoop_mem (env : MainEnv) :
    ∀ fuel b o s r rr, rr ∈ runLoop env b o s r fuel →
      ∃ b2 o2 s2 r2, rr = runStep env b2 o2 s2 r2 := by
  intro fuel
  induction fuel with
  | zero => intro b o s r rr h; simp [runLoop] at h
  | succ n ih =>
    intro b o s r rr h
    simp only [runLoop] at h
    split at h
    · simp at h; exact ⟨b, o, s, r, h⟩
    · rcases List.mem_cons.mp h with h1 | h2
      · exact ⟨b, o, s, r, h1⟩
      · exact ih _ _ _ _ _ h2

theorem runLoop_dropLast_broke (env : MainEnv) :
    ∀ fuel b o s r rr, rr ∈ (runLoop env b o s r fuel).dropLast →
      rr.broke = false := by
  intro fuel
  induction fuel with
  | zero => intro b o s r rr h; simp [runLoop] at h
  | succ n ih =>
    intro b o s r rr h
    simp only [runLoop] at h
    split at h
    · simp at h
    next hb =>
      rcases hrest : runLoop env (runStep env b o s r).newBest
          (runStep env b o s r).newOptimum (runStep env b o s r).newSeed
          (r + 1) n with - | ⟨y, ys⟩
      · rw [hrest] at h; simp at h
      · rw [hrest] at h
        rw [List.dropLast_cons₂] at h
        rcases List.mem_cons.mp h with h1 | h2
        · rw [h1]; exact Bool.not_eq_true _ ▸ hb
        · rw [← hrest] at h2; exact ih _ _ _ _ _ h2

theorem runLoop_head_oldOptimum (env : MainEnv) :
    ∀ fuel b o s r rr, (runLoop env b o s r fuel).head? = some rr →
      rr.oldOptimum = o := by
  intro fuel
  cases fuel with
  | zero => intro b o s r rr h; simp [runLoop] at h
  | succ n =>
    intro b o s r rr h
    simp only [runLoop] at h
    split at h <;> · simp at h; rw [← h]; rfl

theorem runLoop_chain (env : MainEnv) :
    ∀ fuel b o s r, List.Chain' (fun a c => c.oldOptimum = a.newOptimum)
      (runLoop env b o s r fuel) := by
  intro fuel
  induction fuel with
  | zero => intro b o s r; simp [runLoop]
  | succ n ih =>
    intro b o s r
    simp only [runLoop]
    split
    · simp
    · refine List.chain'_cons'.mpr ⟨?_, ih _ _ _ _⟩
      intro y hy
      exact runLoop_head_oldOptimum env n _ _ _ _ y (Option.mem_def.mp hy)

theorem optimumStepOK_runStep (env : MainEnv) (b o s : Int) (r : Nat) :
    OptimumStepOK env (runStep env b o s r) := by
  unfold OptimumStepOK runStep
  refine ⟨rfl, ?_, ?_, rfl⟩
  · by_cases hc : runCost env s r < o <;> simp [hc]
    exact le_of_lt hc
  · by_cases hc : runCost env s r < o <;> simp [hc]

/-- C4 (confirmed).  When the ascent behind CreateCandidateSet ends with
Norm 0, main records the lower bound as Optimum and BestCost, records the
better and best tours, writes the tour to both output files, and sets
Runs to 0, so the run loop is empty and FindTour is never invoked. -/
theorem main_normZero (env : MainEnv) (h : env.norm = 0) :
    (mainSetup env).optimum = env.lowerBound ∧
    (mainSetup env).bestCost = env.lowerBound ∧
    (mainSetup env).recordedBetter = true ∧
    (mainSetup env).recordedBest = true ∧
    (mainSetup env).writes = [(env.outputTourFileName, env.lowerBound),
      (env.tourFileName, env.lowerBound)] ∧
    (mainSetup env).runs = 0 ∧ mainTrace env = [] := by
  refine ⟨?_, ?_, ?_, ?_, ?_, ?_, ?_⟩ <;>
    simp [mainSetup, mainTrace, h, runLoop]

/-- Witness for C4 at envC4 (lower bound 2085). -/
theorem main_normZero_w :
    envC4.norm = 0 ∧
    (mainSetup envC4).optimum = 2085 ∧ (mainSetup envC4).bestCost = 2085 ∧
    (mainSetup envC4).runs = 0 ∧ mainTrace envC4 = [] := by
  have h := main_normZero envC4 rfl
  exact ⟨rfl, h.1, h.2.1, h.2.2.2.2.2.1, h.2.2.2.2.2.2⟩

/-- C5 (amended).  A run of main breaks out of the run loop exactly when
StopAtOptimum is set, the run cost equals the Optimum in force at the
start of the run, and additionally MaxPopulationSize is at least 1; once
the break fires the breaking run is the last one — every non-final run of
the trace has a false break flag. -/
theorem main_breakDiscipline (env : MainEnv) :
    (∀ rr ∈ mainTrace env,
      (rr.broke = true ↔ (env.stopAtOptimum = true ∧
        rr.cost = rr.oldOptimum ∧ 1 ≤ env.maxPopulationSize))) ∧
    (∀ rr ∈ (mainTrace env).dropLast, rr.broke = false) := by
  constructor
  · intro rr hrr
    obtain ⟨b, o, s, r, rfl⟩ :=
      runLoop_mem env (mainSetup env).runs (mainSetup env).bestCost
        (mainSetup env).optimum env.seed 1 rr hrr
    simp only [runStep, runBroke]
    simp [and_assoc]
  · intro rr hrr
    exact runLoop_dropLast_broke env (mainSetup env).runs
      (mainSetup env).bestCost (mainSetup env).optimum env.seed 1 rr hrr

/-- Witness for C5: in envC5b (MaxPopulationSize 1) the first run is in
the trace and its break flag agrees with the three-part condition. -/
theorem main_breakDiscipline_w :
    rrC5 ∈ mainTrace envC5b ∧
    (rrC5.broke = true ↔ (envC5b.stopAtOptimum = true ∧
      rrC5.cost = rrC5.oldOptimum ∧ 1 ≤ envC5b.maxPopulationSize)) :=
  ⟨by decide, (main_breakDiscipline envC5b).1 rrC5 (by decide)⟩

/-- Counterexample for C5 as stated: in envC5, StopAtOptimum is set and
both runs have cost equal to the Optimum in force at their start, yet no
break fires and the second run is performed, because MaxPopulationSize is
0 — the break condition of the code additionally requires
MaxPopulationSize at least 1. -/
theorem main_breakRequiresPop_cex :
    envC5.stopAtOptimum = true ∧ envC5.maxPopulationSize = 0 ∧
    (mainTrace envC5).map runView = [(100, 100, false), (100, 100, false)] := by
  decide

/-- C10 (confirmed).  Across the run loop, Optimum never increases: each
run leaves Optimum unchanged unless the run cost is strictly smaller, in
which case Optimum becomes that cost, and exactly then (when
FirstNode->InputSuc is set) the current successor chain is copied into
InputSuc; consecutive runs chain, the Optimum entering a run being the
Optimum left by the previous one. -/
theorem main_optimumMonotone (env : MainEnv) :
    (∀ rr ∈ mainTrace env, OptimumStepOK env rr) ∧
    List.Chain' (fun a c => c.oldOptimum = a.newOptimum) (mainTrace env) := by
  constructor
  · intro rr hrr
    obtain ⟨b, o, s, r, rfl⟩ :=
      runLoop_mem env (mainSetup env).runs (mainSetup env).bestCost
        (mainSetup env).optimum env.seed 1 rr hrr
    exact optimumStepOK_runStep env b o s r
  · exact runLoop_chain env (mainSetup env).runs (mainSetup env).bestCost
      (mainSetup env).optimum env.seed 1
/-- Witness for C10: the single run of envC10 is in the trace and
satisfies the Optimum bookkeeping property. -/
theorem main_optimumMonotone_w :
    rrC10 ∈ mainTrace envC10 ∧ OptimumStepOK envC10 rrC10 :=
  ⟨by decide, (main_optimumMonotone envC10).1 rrC10 (by decide)⟩

/-- C9 (confirmed).  The run loop is deterministic in the search
parameters: two environments that agree on Norm, LowerBound, Runs, Seed,
MaxTrials, MaxPopulationSize, StopAtOptimum, Optimum, InputSuc and the
three search oracles (which absorb the candidate set construction and the
cost oracle) produce identical traces of costs, optima and seeds, even
when TraceLevel and the output file names differ; and every run that does
not terminate the loop through the StopAtOptimum break ends by reseeding
the PRNG with the incremented seed (SRandom(++Seed)). -/
theorem main_deterministicTrace (e1 e2 : MainEnv)
    (hnorm : e1.norm = e2.norm) (hlb : e1.lowerBound = e2.lowerBound)
    (hruns : e1.runs = e2.runs) (hseed : e1.seed = e2.seed)
    (hmt : e1.maxTrials = e2.maxTrials)
    (hmp : e1.maxPopulationSize = e2.maxPopulationSize)
    (hso : e1.stopAtOptimum = e2.stopAtOptimum)
    (hopt : e1.optimum = e2.optimum) (his : e1.hasInputSuc = e2.hasInputSuc)
    (hft : e1.findTourCost = e2.findTourCost)
    (hg : e1.geneticCost = e2.geneticCost)
    (hmb : e1.mergeBestTourCost = e2.mergeBestTourCost) :
    mainTrace e1 = mainTrace e2 ∧
    ∀ rr ∈ mainTrace e1, rr.reseeded = !rr.broke ∧
      (rr.broke = false → rr.newSeed = rr.prevSeed + 1) := by
  have hstep : ∀ b o s r, runStep e1 b o s r = runStep e2 b o s r := by
    intro b o s r
    simp only [runStep, runCost, runBroke, hmt, hmp, hso, hft, hg, hmb, his]
  have hloop : ∀ fuel b o s r,
      runLoop e1 b o s r fuel = runLoop e2 b o s r fuel := by
    intro fuel
    induction fuel with
    | zero => intro b o s r; rfl
    | succ n ih =>
      intro b o s r
      simp only [runLoop, hstep b o s r, ih]
  have hsetup : (mainSetup e1).bestCost = (mainSetup e2).bestCost ∧
      (mainSetup e1).optimum = (mainSetup e2).optimum ∧
      (mainSetup e1).runs = (mainSetup e2).runs := by
    by_cases hz : e2.norm = 0 <;>
      simp [mainSetup, hnorm, hz, hlb, hopt, hruns]
  constructor
  · unfold mainTrace
    rw [hsetup.1, hsetup.2.1, hsetup.2.2, hseed, hloop]
  · intro rr hrr
    obtain ⟨b, o, s, r, rfl⟩ :=
      runLoop_mem e1 (mainSetup e1).runs (mainSetup e1).bestCost
        (mainSetup e1).optimum e1.seed 1 rr hrr
    refine ⟨rfl, ?_⟩
    intro hb
    have hb2 : runBroke e1 o s r = false := hb
    simp only [runStep, hb2]
    rfl

/-- Witness for C9: envA and envB differ only in TraceLevel and produce
the same trace; the first run of envA reseeds with Seed + 1. -/
theorem main_deterministicTrace_w :
    envA.traceLevel ≠ envB.traceLevel ∧ mainTrace envA = mainTrace envB := by
  have h := main_deterministicTrace envA envB rfl rfl rfl rfl rfl rfl rfl rfl
    rfl rfl rfl rfl
  exact ⟨by decide, h.1⟩

theorem commitWalk_spec {A : Type} [DecidableEq A] (bestSuc : A → A)
    (first : A) (hinj : Function.Injective bestSuc) :
    ∀ fuel t suc pred vis, commitVisited bestSuc first fuel t = some vis →
      vis.Nodup →
      ∃ s p, commitWalk bestSuc first fuel t suc pred = some (s, p, vis) ∧
        (∀ u ∈ vis, s u = bestSuc u ∧ p (bestSuc u) = u) ∧
        (∀ u, u ∉ vis → s u = suc u) ∧
        (∀ w, (∀ u ∈ vis, bestSuc u ≠ w) → p w = pred w) := by
  intro fuel
  induction fuel with
  | zero => intro t suc pred vis hv; simp [commitVisited] at hv
  | succ n ih =>
    intro t suc pred vis hv hnd
    simp only [commitVisited] at hv
    by_cases hf : bestSuc t = first
    · rw [if_pos hf] at hv
      have hv2 : vis = [t] := (Option.some.injEq _ _ ▸ hv).symm
      subst hv2
      refine ⟨Function.update suc t (bestSuc t),
        Function.update pred (bestSuc t) t, ?_, ?_, ?_, ?_⟩
      · simp only [commitWalk, if_pos hf]
      · intro u hu
        rw [List.mem_singleton] at hu
        subst hu
        exact ⟨Function.update_same _ _ _, Function.update_same _ _ _⟩
      · intro u hu
        rw [List.mem_singleton] at hu
        exact Function.update_noteq hu _ _
      · intro w hw
        have hwt : bestSuc t ≠ w := hw t (List.mem_singleton_self t)
        exact Function.update_noteq (Ne.symm hwt) _ _
    · rw [if_neg hf] at hv
      rcases Option.map_eq_some'.mp hv with ⟨vis2, hv2, hcons⟩
      have hcons2 : t :: vis2 = vis := hcons
      subst hcons2
      have htv : t ∉ vis2 := (List.nodup_cons.mp hnd).1
      have hnd2 : vis2.Nodup := (List.nodup_cons.mp hnd).2
      obtain ⟨s, p, heq, hOn, hOffS, hOffP⟩ :=
        ih (bestSuc t) (Function.update suc t (bestSuc t))
          (Function.update pred (bestSuc t) t) vis2 hv2 hnd2
      refine ⟨s, p, ?_, ?_, ?_, ?_⟩
      · simp only [commitWalk, if_neg hf, heq, Option.map_some']
      · intro u hu
        rcases List.mem_cons.mp hu with rfl | hu2
        · constructor
          · rw [hOffS u htv]
            exact Function.update_same _ _ _
          · have hnb : ∀ v ∈ vis2, bestSuc v ≠ bestSuc u := by
              intro v hv3 hbe
              exact htv (hinj hbe ▸ hv3)
            rw [hOffP (bestSuc u) hnb]
            exact Function.update_same _ _ _
        · exact hOn u hu2
      · intro u hu
        have hut : u ≠ t := fun he => hu (he ▸ List.mem_cons_self t vis2)
        have hu2 : u ∉ vis2 := fun he => hu (List.mem_cons_of_mem t he)
        rw [hOffS u hu2]
        exact Function.update_noteq hut _ _
      · intro w hw
        have hw2 : ∀ u ∈ vis2, bestSuc u ≠ w := fun u hu =>
          hw u (List.mem_cons_of_mem t hu)
        rw [hOffP w hw2]
        exact Function.update_noteq
          (Ne.symm (hw t (List.mem_cons_self t vis2))) _ _

/-- C8 (confirmed).  When FindTour exits (with Norm nonzero, as in every
actual call), the commit loop installs the better tour as the working
tour: provided BestSuc walks a duplicate-free cycle from FirstNode that
covers every node, the exit phase succeeds, every node's Suc becomes its
BestSuc with the matching Pred back-link restored, ResetCandidateSet is
called and BetterCost is returned. -/
theorem findTour_exitCommit {A : Type} [DecidableEq A] (norm : Int)
    (first : A) (suc pred bestSuc : A → A) (betterCost : Int) (fuel : Nat)
    (vis : List A) (hnorm : norm ≠ 0) (hinj : Function.Injective bestSuc)
    (hvis : commitVisited bestSuc first fuel first = some vis)
    (hnodup : vis.Nodup) (hcover : ∀ v, v ∈ vis) :
    ExitCommits bestSuc betterCost
      (findTourExit norm first suc pred bestSuc betterCost fuel) := by
  obtain ⟨s, p, heq, hOn, -, -⟩ :=
    commitWalk_spec bestSuc first hinj fuel first suc pred vis hvis hnodup
  unfold findTourExit
  rw [if_neg hnorm, Option.some_bind, heq, Option.map_some']
  exact ⟨rfl, rfl, fun v => hOn v (hcover v)⟩

/-- Witness for C8 on the 3-cycle over Fin 3 with stale constant links. -/
theorem findTour_exitCommit_w :
    ExitCommits cyc3 42 (findTourExit 178 0 zero3 zero3 cyc3 42 3) :=
  findTour_exitCommit 178 0 zero3 zero3 cyc3 42 3 [0, 1, 2] (by decide)
    (by decide) (by decide) (by decide) (by decide)
